import Mathlib

set_option maxRecDepth 100000

/-!
Shallow embedding of the diff package: a structural differ for Go-like
values.  The walker (differ.walk), its emitters (printEmitter and
countEmitter), the hook plumbing (differ.equal) and the key partitioning
(keyDiff) are translated from the walker source file; the value renderer
(formatter.writeTo, writeSimple, writeTypedNil, writeType) is translated
from format.go.  The Go reflect universe is embedded as the inductive
type RVal below; machine recursion on possibly-cyclic data is modelled
with an explicit fuel argument (a result of none means the fuel ran out,
i.e. the corresponding Go execution did not finish within that depth).
-/

/-- Go types for the embedded value universe (a model of reflect.Type).
Struct types are identified nominally by their name, matching Go's named
struct types; function types carry their printed signature. -/
inductive Ty : Type where
  | tint : Ty
  | tstr : Ty
  | tbool : Ty
  | tstruct : String → Ty
  | tptr : Ty → Ty
  | tslice : Ty → Ty
  | tarray : Nat → Ty → Ty
  | tmap : Ty → Ty → Ty
  | tiface : Ty
  | tfunc : String → Ty
  deriving DecidableEq, Repr

/-- Map keys.  Go map keys are comparable values; the embedding restricts
the key universe to the scalar comparable kinds used by the claims. -/
inductive RKey : Type where
  | kint : Int → RKey
  | kstr : String → RKey
  | kbool : Bool → RKey
  deriving DecidableEq, Repr

/-- The embedded value universe (a model of reflect.Value).  invalid is
the zero reflect.Value (IsValid() == false).  Pointers carry the element
type and an optional heap address (none is a nil pointer); slices and
maps carry an optional pair of an identity address (the Go data pointer,
av.Pointer()) and their contents, none being the nil slice or map.
Interface values box an inner value (invalid for a nil interface).
Function values carry their printed type, nilness, and an identity. -/
inductive RVal : Type where
  | invalid : RVal
  | vint : Int → RVal
  | vstr : String → RVal
  | vbool : Bool → RVal
  | vstruct : String → List (String × RVal) → RVal
  | varray : Ty → List RVal → RVal
  | vptr : Ty → Option Nat → RVal
  | vslice : Ty → Option (Nat × List RVal) → RVal
  | vmap : Ty → Ty → Option (Nat × List (RKey × RVal)) → RVal
  | viface : RVal → RVal
  | vfunc : String → Bool → Nat → RVal

/-- The heap: pointer targets, keyed by address.  Cyclic data is built by
letting a stored value contain a pointer back to its own address. -/
def Store : Type := List (Nat × RVal)

/-- Dereference an address (model of reflect.Value.Elem on a non-nil
pointer).  A dangling address, impossible in Go, yields invalid. -/
def storeGet (h : Store) (a : Nat) : RVal :=
  match h.find? (fun p => p.1 == a) with
  | some p => p.2
  | none => .invalid

/-- Model of reflect.Value.IsValid. -/
def RVal.isValid : RVal → Bool
  | .invalid => false
  | _ => true

/-- Dynamic type of a value (model of reflect.Value.Type).  Never queried
on invalid values by the walker, which checks IsValid first; interface
values have their static interface type. -/
def RVal.type : RVal → Ty
  | .invalid => .tiface
  | .vint _ => .tint
  | .vstr _ => .tstr
  | .vbool _ => .tbool
  | .vstruct n _ => .tstruct n
  | .varray t es => .tarray es.length t
  | .vptr t _ => .tptr t
  | .vslice t _ => .tslice t
  | .vmap kt vt _ => .tmap kt vt
  | .viface _ => .tiface
  | .vfunc s _ _ => .tfunc s

/-- Whether a type is a reference-bearing kind tracked for cycles
(reflect.Ptr, reflect.Map, reflect.Slice in the walker's cycle check). -/
def isRefKind : Ty → Bool
  | .tptr _ => true
  | .tslice _ => true
  | .tmap _ _ => true
  | _ => false

/-- Model of reflect.Value.IsNil for the reference-bearing kinds. -/
def RVal.refIsNil : RVal → Bool
  | .vptr _ none => true
  | .vslice _ none => true
  | .vmap _ _ none => true
  | _ => false

/-- Model of reflect.Value.Pointer for the reference-bearing kinds: the
identity address, 0 for nil. -/
def RVal.refPtr : RVal → Nat
  | .vptr _ (some a) => a
  | .vslice _ (some s) => s.1
  | .vmap _ _ (some m) => m.1
  | _ => 0

/-- Model of reflect.Value.MapIndex: look a key up in a map's contents,
yielding the invalid value when the key is absent. -/
def mapIndex (m : List (RKey × RVal)) (k : RKey) : RVal :=
  match m.find? (fun p => p.1 == k) with
  | some p => p.2
  | none => .invalid

/-- Printed form of a type (model of reflect.Type.String, following
writeType in format.go; the universe has no named scalar types, and the
single interface type prints as the any type does there). -/
def typeStr : Ty → String
  | .tint => "int"
  | .tstr => "string"
  | .tbool => "bool"
  | .tstruct n => n
  | .tptr t => "*" ++ typeStr t
  | .tslice t => "[]" ++ typeStr t
  | .tarray n t => "[" ++ toString n ++ "]" ++ typeStr t
  | .tmap kt vt => "map[" ++ typeStr kt ++ "]" ++ typeStr vt
  | .tiface => "any"
  | .tfunc s => s

/-- Go quoting of a string, as fmt's q verb produces for strings without
escape sequences (the strings exercised here contain none). -/
def goQuote (s : String) : String := "\"" ++ s ++ "\""

/-- Rendering of a map key, as writeTo renders the scalar key kinds
(ints and bools via the v verb, strings via the q verb). -/
def writeKey : RKey → String
  | .kint n => toString n
  | .kstr s => goQuote s
  | .kbool b => toString b

/-- Total order on keys used by the key sort, as a Bool. -/
def kleb : RKey → RKey → Bool
  | .kbool a, .kbool b => !a || b
  | .kbool _, _ => true
  | .kint _, .kbool _ => false
  | .kint a, .kint b => decide (a ≤ b)
  | .kint _, .kstr _ => true
  | .kstr _, .kbool _ => false
  | .kstr _, .kint _ => false
  | .kstr a, .kstr b => decide (a ≤ b)

/-- Propositional form of the key order. -/
def kle (a b : RKey) : Prop := kleb a b = true

instance : DecidableRel kle := fun a b => decEq (kleb a b) true

instance : IsTotal RKey kle where
  total a b := by
    cases a <;> cases b <;>
      simp only [kle, kleb, decide_eq_true_eq] <;>
      first
        | exact Or.inl rfl
        | exact Or.inr rfl
        | exact le_total _ _
        | (rename_i x y; cases x <;> cases y <;> simp)

instance : IsTrans RKey kle where
  trans a b c := by
    cases a <;> cases b <;> cases c <;>
      simp only [kle, kleb, decide_eq_true_eq] <;>
      first
        | (rename_i x y z; cases x <;> cases y <;> cases z <;> decide)
        | (intro h1 h2; first | rfl | exact le_trans h1 h2 | simp_all)

instance : IsAntisymm RKey kle where
  antisymm a b := by
    cases a <;> cases b <;>
      simp only [kle, kleb, decide_eq_true_eq] <;>
      first
        | (rename_i x y; cases x <;> cases y <;> decide)
        | (intro h1 h2; first | rfl | exact congrArg _ (le_antisymm h1 h2) | simp_all)

/-- Modelled from the spec: the repository's sortedKeys function (its
source file is not in src/) returns the map's keys in a deterministic
sort order, never iteration order.  Here the storage order of a map's
contents plays the role of Go's iteration order, and the keys are sorted
by the total order kle. -/
def sortedKeys (m : List (RKey × RVal)) : List RKey :=
  List.insertionSort kle (m.map Prod.fst)

/-- Modelled from the spec: the internal indentation writer (its package
is not in src/) prefixes every line written through it with four spaces;
lines with no content receive no prefix. -/
def indentText (s : String) : String :=
  String.intercalate "\n"
    ((s.splitOn "\n").map (fun line => if line = "" then line else "    " ++ line))

/-- Short-mode element list rendering: the loops in writeTo print the
first element and elide the rest with a comma and ellipsis. -/
def shortSeq : List String → String
  | [] => ""
  | [s] => s
  | s :: _ :: _ => s ++ ", ..."

/-- Model of writeSimple in format.go: print a scalar, parenthesised
after its type when the type is requested. -/
def writeSimple (body : String) (t : Ty) (showType : Bool) : String :=
  if showType then typeStr t ++ "(" ++ body ++ ")" else body

/-- Model of writeTypedNil in format.go: a nil reference of type t.  In
this universe pointer and function types are never named, so those kinds
always take the disambiguating parentheses. -/
def writeTypedNil (t : Ty) (showType : Bool) : String :=
  if showType then
    let needParens :=
      match t with
      | .tptr _ => true
      | .tfunc _ => true
      | _ => false
    (if needParens then "(" ++ typeStr t ++ ")" else typeStr t) ++ "(nil)"
  else "nil"

/-- Translation of formatter.writeTo in format.go.  fullm is the full
(multi-line) mode, ad the formatter's allowDepth.  The text/tabwriter
stream used by the full mode is an external collaborator that rewrites
tab stops deterministically; the embedding keeps the tab bytes in place.
The first argument is fuel: writeTo has no cycle detection and diverges
on cyclic pointer chains, which the embedding renders as fuel
exhaustion, returning the empty string. -/
def writeToF : Nat → Store → Bool → Nat → RVal → Bool → Nat → String
  | 0, _, _, _, _, _, _ => ""
  | fuel + 1, h, fullm, ad, v, wantType, depth =>
    match v with
    | .invalid => "nil"
    | .vint n => writeSimple (toString n) .tint wantType
    | .vstr s => writeSimple (goQuote s) .tstr false
    | .vbool b => writeSimple (toString b) .tbool false
    | .varray t es =>
      (if wantType then typeStr (Ty.tarray es.length t) else "")
        ++ (if depth ≥ ad ∧ es.length > 0 then "\x7b...\x7d"
            else "\x7b"
              ++ (if fullm ∧ es.length > 1 then
                    "\n" ++ indentText (String.join
                      (es.map (fun x =>
                        writeToF fuel h fullm ad x false (depth + 1) ++ ",\n")))
                  else shortSeq
                    (es.map (fun x => writeToF fuel h fullm ad x false (depth + 1))))
              ++ "\x7d")
    | .vstruct n fs =>
      (if wantType then n else "")
        ++ (if depth ≥ ad ∧ fs.length > 0 then "\x7b...\x7d"
            else "\x7b"
              ++ (if fullm ∧ fs.length > 1 then
                    "\n" ++ indentText (String.join
                      (fs.map (fun f =>
                        f.1 ++ ":\t"
                          ++ writeToF fuel h fullm ad f.2 false (depth + 1) ++ ",\n")))
                  else shortSeq
                    (fs.map (fun f =>
                      f.1 ++ ":" ++ writeToF fuel h fullm ad f.2 false (depth + 1))))
              ++ "\x7d")
    | .vfunc s isNil _ =>
      if isNil then writeTypedNil (.tfunc s) wantType else s ++ " \x7b...\x7d"
    | .viface inner => writeToF fuel h fullm ad inner true depth
    | .vmap kt vt om =>
      match om with
      | none => writeTypedNil (.tmap kt vt) wantType
      | some (_, m) =>
        (if wantType then typeStr (Ty.tmap kt vt) else "")
          ++ (if depth ≥ ad ∧ m.length > 0 then "\x7b...\x7d"
              else "\x7b"
                ++ (if fullm ∧ m.length > 1 then
                      "\n" ++ indentText (String.join
                        ((sortedKeys m).map (fun k =>
                          writeKey k ++ ":\t"
                            ++ writeToF fuel h fullm ad (mapIndex m k) false (depth + 1)
                            ++ ",\n")))
                    else shortSeq
                      ((sortedKeys m).map (fun k =>
                        writeKey k ++ ":"
                          ++ writeToF fuel h fullm ad (mapIndex m k) false (depth + 1))))
                ++ "\x7d")
    | .vptr t oa =>
      match oa with
      | none => writeTypedNil (.tptr t) wantType
      | some a =>
        (if wantType ∨ !(match t with | .tstruct _ => true | _ => false)
          then "&" else "")
          ++ writeToF fuel h fullm ad (storeGet h a)
              (if (match t with | .tptr _ => true | _ => false) then true else wantType)
              depth
    | .vslice t os =>
      match os with
      | none => writeTypedNil (.tslice t) wantType
      | some (_, es) =>
        (if wantType then typeStr (Ty.tslice t) else "")
          ++ (if depth ≥ ad ∧ es.length > 0 then "\x7b...\x7d"
              else "\x7b"
                ++ (if fullm ∧ es.length > 1 then
                      "\n" ++ indentText (String.join
                        (es.map (fun x =>
                          writeToF fuel h fullm ad x false (depth + 1) ++ ",\n")))
                    else shortSeq
                      (es.map (fun x => writeToF fuel h fullm ad x false (depth + 1))))
                ++ "\x7d")

/-- Model of formatShort in format.go: short single-line mode, depth
limited to 2. -/
def formatShort (fuel : Nat) (h : Store) (v : RVal) (wantType : Bool) : String :=
  writeToF fuel h false 2 v wantType 1

/-- Model of formatFull in format.go: full multi-line mode, effectively
unlimited depth. -/
def formatFull (fuel : Nat) (h : Store) (v : RVal) : String :=
  writeToF fuel h true 100000000 v true 1

/-- Comparison configuration (the config struct of the walker file); the
helper hook is a no-op in this embedding and is omitted. -/
structure Config : Type where
  level : Nat
  equalFuncs : Bool
  xform : List (Ty × (RVal → RVal))
  format : List (Ty × (RVal → RVal → String))

/-- Modelled from the spec: the verbosity enum (its source file is not in
src/) has the three values auto, path-only and full; the level type also
admits other (invalid) values, which the print emitter rejects. -/
def levelAuto : Nat := 0

/-- Modelled from the spec: the path-only verbosity level. -/
def levelPathOnly : Nat := 1

/-- Modelled from the spec: the full verbosity level. -/
def levelFull : Nat := 2

/-- Lookup of a per-type hook by exact dynamic type. -/
def lookupTy {α : Type} (l : List (Ty × α)) (t : Ty) : Option α :=
  (l.find? (fun p => p.1 == t)).map (fun p => p.2)

/-- A visit: reference identity plus type (the visit struct). -/
abbrev Visit : Type := Nat × Ty

/-- The differ: configuration plus the two identity-pairing maps
(aSeen, bSeen), as association lists in insertion order. -/
structure Differ : Type where
  config : Config
  aSeen : List (Visit × Visit)
  bSeen : List (Visit × Visit)

/-- Association-list lookup for the identity maps. -/
def vlookup (l : List (Visit × Visit)) (x : Visit) : Option Visit :=
  (l.find? (fun p => p.1 == x)).map (fun p => p.2)

/-- Record the pairing avis to bvis and its mirror (the map assignments
in the cycle check; both keys are absent when this runs, so assignment
is a prepend). -/
def register (d : Differ) (avis bvis : Visit) : Differ :=
  ⟨d.config, (avis, bvis) :: d.aSeen, (bvis, avis) :: d.bSeen⟩

/-- One reported difference: the emitter path at the emission, the two
values handed to emitf, and the formatted message text. -/
structure Diff : Type where
  path : List String
  av : RVal
  bv : RVal
  msg : String

/-- Walk functions thread a differ and produce the trace of differences
delivered through the emitter, in emission order; none is fuel
exhaustion.  didEmit of the source emitters is nonemptiness of the trace
produced so far, and the counting emitter observes only the length. -/
abbrev WalkFn : Type :=
  Differ → List String → RVal → RVal → Bool → Bool → Option (List Diff × Differ)

/-- Translation of keyDiff, first loop: iterate A's entries (storage
order models Go's iteration order), splitting keys by presence in B. -/
def keyDiffA (be : List (RKey × RVal)) : List (RKey × RVal) → List RKey × List RKey
  | [] => ([], [])
  | (k, _) :: rest =>
    let (ak, both) := keyDiffA be rest
    if (mapIndex be k).isValid then (ak, k :: both) else (k :: ak, both)

/-- Translation of keyDiff, second loop: B's keys absent from A. -/
def keyDiffB (ae : List (RKey × RVal)) : List (RKey × RVal) → List RKey
  | [] => []
  | (k, _) :: rest =>
    let bk := keyDiffB ae rest
    if (mapIndex ae k).isValid then bk else k :: bk

/-- Translation of keyDiff: partition the two maps' keys into A-only,
shared, and B-only. -/
def keyDiff (ae be : List (RKey × RVal)) : List RKey × List RKey × List RKey :=
  let (ak, both) := keyDiffA be ae
  (ak, both, keyDiffB ae be)

/-- Translation of differ.equal: build a sub-differ carrying the same
configuration but with the xform and format maps set to nil and with
fresh identity maps, walk the two values with a counting emitter, and
answer whether nothing was emitted. -/
def dEqual (w : WalkFn) (d : Differ) (av bv : RVal) : Option Bool :=
  match w ⟨⟨d.config.level, d.config.equalFuncs, [], []⟩, [], []⟩ [] av bv true true with
  | none => none
  | some (tr, _) => some tr.isEmpty

/-- Message of emitPointers and eqtest: both sides rendered short. -/
def pairMsg (rfuel : Nat) (hp : Store) (av bv : RVal) (wantType : Bool) : String :=
  formatShort rfuel hp av wantType ++ " != " ++ formatShort rfuel hp bv wantType

/-- Indexed element pairs of two equal-length sequences, with their
sub-path segments. -/
def seqItems (xs ys : List RVal) : List (String × RVal × RVal) :=
  (xs.zip ys).enum.map (fun p => ("[" ++ toString p.1 ++ "]", p.2.1, p.2.2))

/-- Field pairs of two structs of the same type, with their sub-path
segments. -/
def fieldItems (afs bfs : List (String × RVal)) : List (String × RVal × RVal) :=
  (afs.zip bfs).map (fun p => ("." ++ p.1.1, p.1.2, p.2.2))

/-- Run the walker over a list of child items, threading the differ and
concatenating the traces (the element and field loops of the switch). -/
def walkChildren (w : WalkFn) (path : List String) :
    List (String × RVal × RVal) → Differ → Option (List Diff × Differ)
  | [], d => some ([], d)
  | (seg, x, y) :: rest, d =>
    match w d (path ++ [seg]) x y true false with
    | none => none
    | some (tr1, d1) =>
      match walkChildren w path rest d1 with
      | none => none
      | some (tr2, d2) => some (tr1 ++ tr2, d2)

/-- Translation of the kind switch of differ.walk (the category
dispatch), for the kinds of the embedded universe. -/
def walkSwitch (hp : Store) (rfuel : Nat) (w : WalkFn) (d : Differ) (path : List String)
    (av bv : RVal) (wantType : Bool) : Option (List Diff × Differ) :=
  match av, bv with
  | .varray _ xs, .varray _ ys => walkChildren w path (seqItems xs ys) d
  | .vstruct _ afs, .vstruct _ bfs => walkChildren w path (fieldItems afs bfs) d
  | .vfunc _ anil _, .vfunc _ bnil _ =>
    if d.config.equalFuncs then some ([], d)
    else if !anil || !bnil then
      some ([⟨path, av, bv, pairMsg rfuel hp av bv wantType⟩], d)
    else some ([], d)
  | .viface ai, .viface bi => w d path ai bi true true
  | .vmap _ _ am, .vmap _ _ bm =>
    if am.isSome != bm.isSome then
      some ([⟨path, av, bv, pairMsg rfuel hp av bv wantType⟩], d)
    else if av.refPtr == bv.refPtr then some ([], d)
    else
      let ae := (am.map Prod.snd).getD []
      let be := (bm.map Prod.snd).getD []
      let akk := keyDiff ae be
      let removed := akk.1.map (fun k =>
        (⟨path ++ ["[" ++ writeKey k ++ "]"], mapIndex ae k, mapIndex be k,
          "(removed)"⟩ : Diff))
      let added := akk.2.2.map (fun k =>
        (⟨path ++ ["[" ++ writeKey k ++ "]"], mapIndex ae k, mapIndex be k,
          "(added) " ++ formatShort rfuel hp (mapIndex be k) false⟩ : Diff))
      (walkChildren w path
          (akk.2.1.map (fun k => ("[" ++ writeKey k ++ "]", mapIndex ae k, mapIndex be k)))
          d).map
        (fun r => (removed ++ r.1 ++ added, r.2))
  | .vptr _ oa, .vptr _ ob =>
    if av.refPtr == bv.refPtr then some ([], d)
    else if oa.isSome != ob.isSome then
      some ([⟨path, av, bv, pairMsg rfuel hp av bv wantType⟩], d)
    else
      match oa, ob with
      | some a, some b => w d path (storeGet hp a) (storeGet hp b) true wantType
      | _, _ => some ([], d)
  | .vslice _ os1, .vslice _ os2 =>
    if os1.isSome != os2.isSome then
      some ([⟨path, av, bv, pairMsg rfuel hp av bv wantType⟩], d)
    else
      let xs := (os1.map Prod.snd).getD []
      let ys := (os2.map Prod.snd).getD []
      if xs.length == ys.length && av.refPtr == bv.refPtr then some ([], d)
      else if xs.length != ys.length then
        some ([⟨path, av, bv,
          "\x7blen " ++ toString xs.length ++ "\x7d != \x7blen " ++ toString ys.length ++ "\x7d"⟩], d)
      else walkChildren w path (seqItems xs ys) d
  | .vbool a, .vbool b =>
    if a != b then some ([⟨path, av, bv, pairMsg rfuel hp av bv wantType⟩], d)
    else some ([], d)
  | .vint a, .vint b =>
    if a != b then some ([⟨path, av, bv, pairMsg rfuel hp av bv wantType⟩], d)
    else some ([], d)
  | .vstr a, .vstr b =>
    if a != b then some ([⟨path, av, bv, goQuote a ++ " != " ++ goQuote b⟩], d)
    else some ([], d)
  | _, _ => some ([], d)

/-- The format-hook check of differ.walk followed by the kind switch: a
registered renderer fires only when the values are not already equal
under default rules, and its emission returns from the walk. -/
def walkRest (hp : Store) (rfuel : Nat) (w : WalkFn) (d : Differ) (path : List String)
    (av bv : RVal) (wantType : Bool) : Option (List Diff × Differ) :=
  match lookupTy d.config.format av.type with
  | some ff =>
    match dEqual w d av bv with
    | none => none
    | some true => walkSwitch hp rfuel w d path av bv wantType
    | some false => some ([⟨path, av, bv, ff av bv⟩], d)
  | none => walkSwitch hp rfuel w d path av bv wantType

/-- The transform-hook check of differ.walk, the rest of the walk, and
the post-dispatch finalization: equal transformed values end the node;
otherwise, when the structural comparison emitted nothing, a generic
note is emitted and the transformed values are walked once with the
transform disabled and the type annotation forced on. -/
def walkMain (hp : Store) (rfuel : Nat) (w : WalkFn) (d : Differ) (path : List String)
    (av bv : RVal) (xformOk wantType : Bool) : Option (List Diff × Differ) :=
  match (if xformOk then lookupTy d.config.xform av.type else none) with
  | some xf =>
    match dEqual w d (xf av) (xf bv) with
    | none => none
    | some true => some ([], d)
    | some false =>
      match walkRest hp rfuel w d path av bv wantType with
      | none => none
      | some (tr, d1) =>
        if tr.isEmpty then
          match w d1 (path ++ ["->"]) (xf av) (xf bv) false true with
          | none => none
          | some (tr2, d2) =>
            some ((⟨path, av, bv, "(transformed values differ)"⟩ : Diff) :: tr2, d2)
        else some (tr, d1)
  | none => walkRest hp rfuel w d path av bv wantType

/-- The cycle check of differ.walk: for non-nil reference-bearing values,
a recorded pairing that matches ends the subtree silently, a recorded
pairing that does not match (on either side) emits one uneven-cycle
difference and ends the subtree, and an unrecorded pair is registered
before walking on. -/
def walkCycle (hp : Store) (rfuel : Nat) (w : WalkFn) (d : Differ) (path : List String)
    (av bv : RVal) (xformOk wantType : Bool) : Option (List Diff × Differ) :=
  if isRefKind av.type && !(av.refIsNil || bv.refIsNil) then
    let avis : Visit := (av.refPtr, av.type)
    let bvis : Visit := (bv.refPtr, av.type)
    match vlookup d.aSeen avis with
    | some prior =>
      if prior ≠ bvis then some ([⟨path, av, bv, "uneven cycle"⟩], d)
      else some ([], d)
    | none =>
      match vlookup d.bSeen bvis with
      | some _ => some ([⟨path, av, bv, "uneven cycle"⟩], d)
      | none => walkMain hp rfuel w (register d avis bvis) path av bv xformOk wantType
  else walkMain hp rfuel w d path av bv xformOk wantType

/-- One step of differ.walk: validity checks, the dynamic type check,
then the cycle check and everything after it.  The recursive walks are
taken from the w argument. -/
def walkCore (hp : Store) (rfuel : Nat) (w : WalkFn) (d : Differ) (path : List String)
    (av bv : RVal) (xformOk wantType : Bool) : Option (List Diff × Differ) :=
  if !av.isValid && !bv.isValid then some ([], d)
  else if !av.isValid then
    some ([⟨path, av, bv, "nil != " ++ formatShort rfuel hp bv true⟩], d)
  else if !bv.isValid then
    some ([⟨path, av, bv, formatShort rfuel hp av true ++ " != nil"⟩], d)
  else if av.type ≠ bv.type then
    some ([⟨path, av, bv, typeStr av.type ++ " != " ++ typeStr bv.type⟩], d)
  else walkCycle hp rfuel w d path av bv xformOk wantType

/-- Translation of differ.walk: walkCore iterated on fuel.  rfuel is the
fuel handed to the renderer for message construction. -/
def walk (hp : Store) (rfuel : Nat) : Nat → WalkFn
  | 0 => fun _ _ _ _ _ _ => none
  | fuel + 1 => fun d path av bv xformOk wantType =>
    walkCore hp rfuel (walk hp rfuel fuel) d path av bv xformOk wantType

/-- Translation of printEmitter.emitf: format one difference into the
single line handed to the sink.  The render argument stands for the
formatting of a value by fmt's sharp verb in the full case (the fmt
package is an external collaborator).  The panic on an unrecognized
level is the error value. -/
def emitfLine (render : RVal → String) (lvl : Nat) (e : Diff) : Except String String :=
  let p := if e.path.length > 0 then String.join e.path ++ ": " else ""
  if lvl = levelAuto then .ok (p ++ e.msg ++ "\n")
  else if lvl = levelPathOnly then .ok (String.join e.path ++ "\n")
  else if lvl = levelFull then .ok (p ++ render e.av ++ " != " ++ render e.bv ++ "\n")
  else .error "diff: bad verbose level"

/-- Deliver a whole trace through the print emitter: the formatted lines
in delivery order, or the panic at the first difference under a bad
level. -/
def runPrint (render : RVal → String) (lvl : Nat) : List Diff → Except String (List String)
  | [] => .ok []
  | e :: rest =>
    match emitfLine render lvl e with
    | .error m => .error m
    | .ok s =>
      match runPrint render lvl rest with
      | .error m => .error m
      | .ok ss => .ok (s :: ss)

/-- Translation of the each entry point: build a differ with fresh
identity maps, walk the two roots with the transform allowed and the
type annotation requested, and deliver the trace through the print
emitter. -/
def eachRun (render : RVal → String) (hp : Store) (cfg : Config) (fuel rfuel : Nat)
    (a b : RVal) : Option (Except String (List String)) :=
  (walk hp rfuel fuel ⟨cfg, [], []⟩ [] a b true true).map
    (fun r => runPrint render cfg.level r.1)

/-! Example fixtures used by the concrete parts of the claims. -/

/-- Default-shaped configuration: auto level, no hooks. -/
def cfg0 : Config := ⟨levelAuto, false, [], []⟩

/-- A fresh differ over cfg0, as each builds before the root walk. -/
def dInit : Differ := ⟨cfg0, [], []⟩

/-- Projection of a walk result to its observable trace: paths and
messages, in emission order. -/
def traceOf (r : Option (List Diff × Differ)) : Option (List (List String × String)) :=
  r.map (fun p => p.1.map (fun e => (e.path, e.msg)))

/-- The node type of the cyclic examples. -/
def nodeT : Ty := .tstruct "Node"

/-- Heap for the cyclic examples: 1 and 2 are self-loops; 3 and 4 form a
two-node cycle. -/
def heapC : Store :=
  [(1, .vstruct "Node" [("Next", .vptr nodeT (some 1))]),
   (2, .vstruct "Node" [("Next", .vptr nodeT (some 2))]),
   (3, .vstruct "Node" [("Next", .vptr nodeT (some 4))]),
   (4, .vstruct "Node" [("Next", .vptr nodeT (some 3))])]

/-- A rewrite hook: expose a function value's identity as an int (the
only structural difference the default rules cannot see is between
non-nil functions when function equality is switched on). -/
def xfFunc : RVal → RVal :=
  fun v => match v with
  | .vfunc _ _ i => .vint (Int.ofNat i)
  | _ => v

/-- Configuration registering xfFunc for the example function type, with
function values otherwise treated as equal. -/
def cfgF : Config := ⟨levelAuto, true, [(Ty.tfunc "func()", xfFunc)], []⟩

/-- A fresh differ over cfgF. -/
def dF : Differ := ⟨cfgF, [], []⟩

/-- The identity tracker invariant: aSeen and bSeen are mutually inverse
pairings, so an A-side identity is associated with at most one B-side
identity and vice versa. -/
def TrackInv (d : Differ) : Prop :=
  ∀ x y : Visit, vlookup d.aSeen x = some y ↔ vlookup d.bSeen y = some x

/-- Tracker evolutions the walker performs: a sequence of registrations
of pairs whose sides are both unseen at registration time. -/
inductive Reach : Differ → Differ → Prop where
  | refl (d : Differ) : Reach d d
  | step {d d' : Differ} {a b : Visit}
      (ha : vlookup d.aSeen a = none) (hb : vlookup d.bSeen b = none)
      (h : Reach (register d a b) d') : Reach d d'

/-- A walk function whose tracker output is reachable from its tracker
input by fresh registrations. -/
def WReach (w : WalkFn) : Prop :=
  ∀ d path av bv xformOk wantType tr d',
    w d path av bv xformOk wantType = some (tr, d') → Reach d d'

/-! Claim theorems. -/

/-- C7: for every emitted difference the textual sink formats exactly one
line per the active verbosity level: auto delivers the path-prefixed
message (just the message when the path is empty), path-only delivers
the path alone followed by a newline and ignores the message text, and
full delivers the path prefix with both values rendered in full (render
standing for fmt's Go-syntax value rendering, an external collaborator
applied to the whole value with no depth bound). -/
theorem c7_print_line_shapes (render : RVal → String) (e : Diff) :
    (e.path ≠ [] →
      emitfLine render levelAuto e
        = .ok ((String.join e.path ++ ": ") ++ e.msg ++ "\n")) ∧
    (e.path = [] → emitfLine render levelAuto e = .ok (e.msg ++ "\n")) ∧
    emitfLine render levelPathOnly e = .ok (String.join e.path ++ "\n") ∧
    (e.path ≠ [] →
      emitfLine render levelFull e
        = .ok ((String.join e.path ++ ": ")
            ++ (render e.av ++ " != " ++ render e.bv) ++ "\n")) ∧
    (e.path = [] →
      emitfLine render levelFull e
        = .ok ((render e.av ++ " != " ++ render e.bv) ++ "\n")) := by
  refine ⟨fun h => ?_, fun h => ?_, ?_, fun h => ?_, fun h => ?_⟩ <;>
    simp [emitfLine, levelAuto, levelPathOnly, levelFull, List.length_pos,
      String.append_assoc, *]

/-- C7 witness. -/
theorem c7_print_line_shapes_witness :
    emitfLine (fun _ => "v") levelAuto ⟨["p"], .invalid, .invalid, "m"⟩
      = .ok ((String.join ["p"] ++ ": ") ++ "m" ++ "\n") ∧
    emitfLine (fun _ => "v") levelAuto ⟨[], .invalid, .invalid, "m"⟩
      = .ok ("m" ++ "\n") ∧
    emitfLine (fun _ => "v") levelFull ⟨["p"], .invalid, .invalid, "m"⟩
      = .ok ((String.join ["p"] ++ ": ") ++ ("v" ++ " != " ++ "v") ++ "\n") :=
  ⟨(c7_print_line_shapes (fun _ => "v") ⟨["p"], .invalid, .invalid, "m"⟩).1 (by decide),
   (c7_print_line_shapes (fun _ => "v") ⟨[], .invalid, .invalid, "m"⟩).2.1 rfl,
   (c7_print_line_shapes (fun _ => "v") ⟨["p"], .invalid, .invalid, "m"⟩).2.2.2.1 (by decide)⟩

/-- C8 counterexample: under an unrecognized verbosity level, a
comparison run that finds no differences completes normally and aborts
nothing — the bad-level panic sits inside emitf, which never runs when
nothing is emitted — refuting the claim that every run under such a
level aborts. -/
theorem c8_bad_level_counterexample :
    (3 ≠ levelAuto ∧ 3 ≠ levelPathOnly ∧ 3 ≠ levelFull) ∧
    eachRun (fun _ => "") [] ⟨3, false, [], []⟩ 2 2 (.vint 1) (.vint 1)
      = some (.ok []) :=
  ⟨by decide, rfl⟩

/-- C8 amended: an unrecognized verbosity level is a fatal error surfaced
on the first emitted difference: a run that emits at least one
difference aborts with the bad-verbose-level error, while a run that
emits none completes with no output (and no error). -/
theorem c8_bad_level_aborts (render : RVal → String) (hp : Store) (cfg : Config)
    (fuel rfuel : Nat) (a b : RVal) (tr : List Diff) (d' : Differ)
    (h0 : cfg.level ≠ levelAuto) (h1 : cfg.level ≠ levelPathOnly)
    (h2 : cfg.level ≠ levelFull)
    (hw : walk hp rfuel fuel ⟨cfg, [], []⟩ [] a b true true = some (tr, d')) :
    (tr ≠ [] → eachRun render hp cfg fuel rfuel a b
        = some (.error "diff: bad verbose level")) ∧
    (tr = [] → eachRun render hp cfg fuel rfuel a b = some (.ok [])) := by
  constructor
  · intro hne
    match tr, hne with
    | e :: rest, _ =>
      have he : emitfLine render cfg.level e = .error "diff: bad verbose level" := by
        simp [emitfLine, h0, h1, h2]
      simp [eachRun, hw, runPrint, he]
  · intro hnil
    subst hnil
    simp [eachRun, hw, runPrint]

/-- C8 witness for the amended theorem. -/
theorem c8_bad_level_aborts_witness :
    eachRun (fun _ => "") [] ⟨3, false, [], []⟩ 2 2 (.vint 1) (.vint 2)
      = some (.error "diff: bad verbose level") :=
  (c8_bad_level_aborts (fun _ => "") [] ⟨3, false, [], []⟩ 2 2 (.vint 1) (.vint 2)
      [⟨[], .vint 1, .vint 2, "int(1) != int(2)"⟩] ⟨⟨3, false, [], []⟩, [], []⟩
      (by decide) (by decide) (by decide) rfl).1 (by simp)

/-- C4: a rewrite registered for the node's exact dynamic type, with
transforming permitted at the node, whose outputs compare equal under
the default rules (the silent sub-check), ends the node with no emitted
difference, no recursion, and the tracker unchanged, regardless of any
structural difference between the untransformed values.  walkMain is the
walk body from the transform check on (after the validity, type, and
cycle checks). -/
theorem c4_rewrite_equal_short_circuit (hp : Store) (rfuel : Nat) (w : WalkFn)
    (d : Differ) (path : List String) (av bv : RVal) (wantType : Bool)
    (xf : RVal → RVal)
    (hreg : lookupTy d.config.xform av.type = some xf)
    (heq : dEqual w d (xf av) (xf bv) = some true) :
    walkMain hp rfuel w d path av bv true wantType = some ([], d) := by
  simp [walkMain, hreg, heq]

/-- C4 witness: a rewrite collapsing ints lets 1 compare equal to 2. -/
theorem c4_rewrite_equal_short_circuit_witness :
    walkMain [] 4 (walk [] 4 4)
      ⟨⟨levelAuto, false, [(.tint, fun _ => .vint 0)], []⟩, [], []⟩
      [] (.vint 1) (.vint 2) true true = some ([],
        ⟨⟨levelAuto, false, [(.tint, fun _ => .vint 0)], []⟩, [], []⟩) :=
  c4_rewrite_equal_short_circuit [] 4 (walk [] 4 4)
    ⟨⟨levelAuto, false, [(.tint, fun _ => .vint 0)], []⟩, [], []⟩
    [] (.vint 1) (.vint 2) true (fun _ => .vint 0) rfl rfl

/-- C5: when a rewrite was applied, the transformed values are unequal,
and the structural comparison of the untransformed values emitted
nothing, the walker emits the transformed-values-differ note and then
recurses exactly once into the transformed values with transforming
disabled and type annotation forced on, so the trace is never empty. -/
theorem c5_transformed_values_differ (hp : Store) (rfuel : Nat) (w : WalkFn)
    (d d1 d2 : Differ) (path : List String) (av bv : RVal) (wantType : Bool)
    (xf : RVal → RVal) (tr2 : List Diff)
    (hreg : lookupTy d.config.xform av.type = some xf)
    (heq : dEqual w d (xf av) (xf bv) = some false)
    (hrest : walkRest hp rfuel w d path av bv wantType = some ([], d1))
    (hrec : w d1 (path ++ ["->"]) (xf av) (xf bv) false true = some (tr2, d2)) :
    walkMain hp rfuel w d path av bv true wantType
      = some (⟨path, av, bv, "(transformed values differ)"⟩ :: tr2, d2) ∧
    (⟨path, av, bv, "(transformed values differ)"⟩ :: tr2 : List Diff) ≠ [] := by
  refine ⟨?_, by simp⟩
  simp [walkMain, hreg, heq, hrest, hrec]

/-- C6: the internal equality sub-check (differ.equal, used for the
rewrite-equality test and the renderer precondition) runs the walker on
a freshly created, independent tracker with a counting sink: its answer
is independent of the enclosing comparison's aSeen and bSeen pairings,
and in both hook branches it leaves the enclosing differ and the outer
trace untouched — the rewrite-equal branch returns the differ unchanged
with no emission, and the renderer branch returns the differ unchanged
with only the renderer's own emission. -/
theorem c6_equal_subcheck_frame (w : WalkFn) (av bv : RVal) :
    (∀ d1 d2 : Differ, d1.config = d2.config →
      dEqual w d1 av bv = dEqual w d2 av bv) ∧
    (∀ (hp : Store) (rfuel : Nat) (d : Differ) (path : List String)
        (wantType : Bool) (xf : RVal → RVal),
      lookupTy d.config.xform av.type = some xf →
      dEqual w d (xf av) (xf bv) = some true →
      walkMain hp rfuel w d path av bv true wantType = some ([], d)) ∧
    (∀ (hp : Store) (rfuel : Nat) (d : Differ) (path : List String)
        (wantType : Bool) (ff : RVal → RVal → String),
      lookupTy d.config.format av.type = some ff →
      dEqual w d av bv = some false →
      walkRest hp rfuel w d path av bv wantType
        = some ([⟨path, av, bv, ff av bv⟩], d)) := by
  refine ⟨?_, ?_, ?_⟩
  · intro d1 d2 h
    unfold dEqual
    rw [h]
  · intro hp rfuel d path wantType xf hreg heq
    simp [walkMain, hreg, heq]
  · intro hp rfuel d path wantType ff hreg heq
    simp [walkRest, hreg, heq]

/-- C6 witness. -/
theorem c6_equal_subcheck_frame_witness :
    dEqual (walk [] 4 4) ⟨cfg0, [((5, .tint), (6, .tint))], []⟩ (.vint 1) (.vint 1)
      = dEqual (walk [] 4 4) ⟨cfg0, [], [((6, .tint), (5, .tint))]⟩ (.vint 1) (.vint 1) :=
  (c6_equal_subcheck_frame (walk [] 4 4) (.vint 1) (.vint 1)).1
    ⟨cfg0, [((5, .tint), (6, .tint))], []⟩ ⟨cfg0, [], [((6, .tint), (5, .tint))]⟩ rfl

/-- C10: the equality sub-check discards all registered hooks, not only
the current type's: its sub-differ carries empty rewrite and renderer
maps, so its answer is invariant under every choice of registered hook
maps, and under an empty hook configuration every node of a walk takes
the plain dispatch path — walkMain collapses to the kind switch, so no
rewrite and no custom renderer is applied to any value, nested ones
included. -/
theorem c10_subcheck_discards_hooks (w : WalkFn) (av bv : RVal) :
    (∀ (lvl : Nat) (ef : Bool)
        (x1 x2 : List (Ty × (RVal → RVal)))
        (f1 f2 : List (Ty × (RVal → RVal → String)))
        (s1 t1 s2 t2 : List (Visit × Visit)),
      dEqual w ⟨⟨lvl, ef, x1, f1⟩, s1, t1⟩ av bv
        = dEqual w ⟨⟨lvl, ef, x2, f2⟩, s2, t2⟩ av bv) ∧
    (∀ (hp : Store) (rfuel : Nat) (w' : WalkFn) (d : Differ)
        (path : List String) (av' bv' : RVal) (xformOk wantType : Bool),
      d.config.xform = [] → d.config.format = [] →
      walkMain hp rfuel w' d path av' bv' xformOk wantType
        = walkSwitch hp rfuel w' d path av' bv' wantType) := by
  refine ⟨fun lvl ef x1 x2 f1 f2 s1 t1 s2 t2 => rfl, ?_⟩
  intro hp rfuel w' d path av' bv' xformOk wantType hx hf
  unfold walkMain walkRest
  rw [hx, hf]
  cases xformOk <;> simp [lookupTy]

/-- C10 witness: with a rewrite registered that would equate everything,
the sub-check still reports 1 and 2 unequal, exactly as it does with no
hooks registered at all. -/
theorem c10_subcheck_discards_hooks_witness :
    dEqual (walk [] 4 4)
        ⟨⟨levelAuto, false, [(.tint, fun _ => .vint 0)], []⟩, [], []⟩
        (.vint 1) (.vint 2)
      = dEqual (walk [] 4 4) ⟨⟨levelAuto, false, [], []⟩, [], []⟩
        (.vint 1) (.vint 2) :=
  (c10_subcheck_discards_hooks (walk [] 4 4) (.vint 1) (.vint 2)).1
    levelAuto false [(.tint, fun _ => .vint 0)] [] [] [] [] [] [] []

/-- C2: for non-nil slices of the same type, differing lengths emit
exactly the one length-mismatch difference — with no per-element
recursion — right after the pair is registered in the tracker; equal
lengths with distinct backing storage compare element-wise at every
index with indexed sub-paths (slices sharing length and storage are
equal and skip the element walk).  The hypotheses put the walker in the
default situation at the node: the pair not yet tracked, no hooks for
the slice type. -/
theorem c2_slice_length_short_circuit (hp : Store) (rfuel : Nat) (w : WalkFn)
    (d : Differ) (path : List String) (t : Ty) (pa pb : Nat)
    (xs ys : List RVal) (xformOk wantType : Bool)
    (ha : vlookup d.aSeen (pa, Ty.tslice t) = none)
    (hb : vlookup d.bSeen (pb, Ty.tslice t) = none)
    (hx : lookupTy d.config.xform (Ty.tslice t) = none)
    (hf : lookupTy d.config.format (Ty.tslice t) = none) :
    (xs.length ≠ ys.length →
      walkCore hp rfuel w d path (.vslice t (some (pa, xs)))
          (.vslice t (some (pb, ys))) xformOk wantType
        = some ([⟨path, .vslice t (some (pa, xs)), .vslice t (some (pb, ys)),
            "\x7blen " ++ toString xs.length ++ "\x7d != \x7blen " ++ toString ys.length ++ "\x7d"⟩],
            register d (pa, Ty.tslice t) (pb, Ty.tslice t))) ∧
    (xs.length = ys.length → pa ≠ pb →
      walkCore hp rfuel w d path (.vslice t (some (pa, xs)))
          (.vslice t (some (pb, ys))) xformOk wantType
        = walkChildren w path (seqItems xs ys)
            (register d (pa, Ty.tslice t) (pb, Ty.tslice t))) := by
  constructor
  · intro hlen
    cases xformOk <;>
      simp [walkCore, walkCycle, walkMain, walkRest, walkSwitch, RVal.type,
        RVal.isValid, isRefKind, RVal.refIsNil, RVal.refPtr, register,
        ha, hb, hx, hf, hlen]
  · intro hlen hne
    cases xformOk <;>
      simp [walkCore, walkCycle, walkMain, walkRest, walkSwitch, RVal.type,
        RVal.isValid, isRefKind, RVal.refIsNil, RVal.refPtr, register,
        ha, hb, hx, hf, hlen, hne]

/-- C2 witness: a length 2 slice against a length 3 slice, and two
distinct length 2 slices. -/
theorem c2_slice_length_short_circuit_witness :
    (walkCore [] 4 (walk [] 4 4) dInit [] (.vslice .tint (some (1, [.vint 1, .vint 2])))
        (.vslice .tint (some (2, [.vint 1, .vint 2, .vint 3]))) true true
      = some ([⟨[], .vslice .tint (some (1, [.vint 1, .vint 2])),
          .vslice .tint (some (2, [.vint 1, .vint 2, .vint 3])),
          "\x7blen 2\x7d != \x7blen 3\x7d"⟩],
          register dInit (1, Ty.tslice .tint) (2, Ty.tslice .tint))) ∧
    (walkCore [] 4 (walk [] 4 4) dInit [] (.vslice .tint (some (1, [.vint 1, .vint 2])))
        (.vslice .tint (some (2, [.vint 1, .vint 5]))) true true
      = walkChildren (walk [] 4 4) []
          (seqItems [.vint 1, .vint 2] [.vint 1, .vint 5])
          (register dInit (1, Ty.tslice .tint) (2, Ty.tslice .tint))) :=
  ⟨(c2_slice_length_short_circuit [] 4 (walk [] 4 4) dInit [] .tint 1 2
      [.vint 1, .vint 2] [.vint 1, .vint 2, .vint 3] true true
      rfl rfl rfl rfl).1 (by decide),
   (c2_slice_length_short_circuit [] 4 (walk [] 4 4) dInit [] .tint 1 2
      [.vint 1, .vint 2] [.vint 1, .vint 5] true true
      rfl rfl rfl rfl).2 rfl (by decide)⟩

/-- The first keyDiff loop filters A's keys, in storage order, by
absence or presence in B. -/
theorem keyDiffA_eq (be : List (RKey × RVal)) (ae : List (RKey × RVal)) :
    keyDiffA be ae
      = ((ae.map Prod.fst).filter (fun k => !(mapIndex be k).isValid),
         (ae.map Prod.fst).filter (fun k => (mapIndex be k).isValid)) := by
  induction ae with
  | nil => rfl
  | cons p rest ih =>
    obtain ⟨k, v⟩ := p
    simp only [keyDiffA, ih, List.map_cons, List.filter_cons]
    cases h : (mapIndex be k).isValid <;> simp [h]

/-- The second keyDiff loop filters B's keys by absence in A. -/
theorem keyDiffB_eq (ae : List (RKey × RVal)) (be : List (RKey × RVal)) :
    keyDiffB ae be = (be.map Prod.fst).filter (fun k => !(mapIndex ae k).isValid) := by
  induction be with
  | nil => rfl
  | cons p rest ih =>
    obtain ⟨k, v⟩ := p
    simp only [keyDiffB, ih, List.map_cons, List.filter_cons]
    cases h : (mapIndex ae k).isValid <;> simp [h]

/-- For a map whose stored values are all valid, MapIndex yields a valid
value exactly on the stored keys. -/
theorem mapIndex_isValid_iff (m : List (RKey × RVal)) (k : RKey)
    (hv : ∀ p ∈ m, (p.2 : RVal).isValid = true) :
    (mapIndex m k).isValid = true ↔ k ∈ m.map Prod.fst := by
  induction m with
  | nil => simp [mapIndex, RVal.isValid]
  | cons p rest ih =>
    obtain ⟨k', v⟩ := p
    by_cases h : k' = k
    · subst h
      simp [mapIndex, List.find?_cons, hv (k', v) (by simp)]
    · have hb : (k' == k) = false := by simp [h]
      have ih' := ih (fun p hp => hv p (List.mem_cons_of_mem _ hp))
      simp only [mapIndex, List.find?_cons, hb] at ih' ⊢
      simp [ih', h, Ne.symm h]

/-- C3: for non-nil same-type maps with distinct backing storage, the
walker partitions the union of keys: one removed-difference per A-only
key, one child walk per shared key under the bracketed key sub-path,
and one added-difference — carrying a short rendering of the added
value — per B-only key, in that order; the three keyDiff components are
exactly the A-only, shared and B-only keys; and in particular the map
a:1 against a:1,b:2 emits exactly one difference, for key b, marked
added. -/
theorem c3_map_partition (hp : Store) (rfuel : Nat) (w : WalkFn) (d : Differ)
    (path : List String) (kt vt : Ty) (pa pb : Nat)
    (ae be : List (RKey × RVal)) (xformOk wantType : Bool)
    (hva : ∀ p ∈ ae, (p.2 : RVal).isValid = true)
    (hvb : ∀ p ∈ be, (p.2 : RVal).isValid = true)
    (hptr : pa ≠ pb)
    (ha : vlookup d.aSeen (pa, Ty.tmap kt vt) = none)
    (hb : vlookup d.bSeen (pb, Ty.tmap kt vt) = none)
    (hx : lookupTy d.config.xform (Ty.tmap kt vt) = none)
    (hf : lookupTy d.config.format (Ty.tmap kt vt) = none) :
    walkCore hp rfuel w d path (.vmap kt vt (some (pa, ae)))
        (.vmap kt vt (some (pb, be))) xformOk wantType
      = (walkChildren w path
            ((keyDiff ae be).2.1.map (fun k =>
              ("[" ++ writeKey k ++ "]", mapIndex ae k, mapIndex be k)))
            (register d (pa, Ty.tmap kt vt) (pb, Ty.tmap kt vt))).map
          (fun r =>
            ((keyDiff ae be).1.map (fun k =>
              (⟨path ++ ["[" ++ writeKey k ++ "]"], mapIndex ae k, mapIndex be k,
                "(removed)"⟩ : Diff))
              ++ r.1
              ++ (keyDiff ae be).2.2.map (fun k =>
                (⟨path ++ ["[" ++ writeKey k ++ "]"], mapIndex ae k, mapIndex be k,
                  "(added) " ++ formatShort rfuel hp (mapIndex be k) false⟩ : Diff)),
              r.2)) ∧
    (∀ k, k ∈ (keyDiff ae be).1 ↔ k ∈ ae.map Prod.fst ∧ k ∉ be.map Prod.fst) ∧
    (∀ k, k ∈ (keyDiff ae be).2.1 ↔ k ∈ ae.map Prod.fst ∧ k ∈ be.map Prod.fst) ∧
    (∀ k, k ∈ (keyDiff ae be).2.2 ↔ k ∈ be.map Prod.fst ∧ k ∉ ae.map Prod.fst) ∧
    traceOf (walk [] 4 4 dInit []
        (.vmap .tstr .tint (some (10, [(.kstr "a", .vint 1)])))
        (.vmap .tstr .tint (some (11, [(.kstr "a", .vint 1), (.kstr "b", .vint 2)])))
        true true)
      = some [(["[\"b\"]"], "(added) 2")] := by
  refine ⟨?_, ?_, ?_, ?_, by decide⟩
  · cases xformOk <;>
      simp [walkCore, walkCycle, walkMain, walkRest, walkSwitch, RVal.type,
        RVal.isValid, isRefKind, RVal.refIsNil, RVal.refPtr, register,
        ha, hb, hx, hf, hptr]
  · intro k
    have hiff := mapIndex_isValid_iff be k hvb
    have h1 : (keyDiff ae be).1
        = (ae.map Prod.fst).filter (fun k => !(mapIndex be k).isValid) := by
      simp [keyDiff, keyDiffA_eq]
    rw [h1, List.mem_filter]
    cases hval : (mapIndex be k).isValid <;> simp only [hval] at hiff ⊢ <;>
      simp at hiff ⊢ <;> simp [hiff]
  · intro k
    have hiff := mapIndex_isValid_iff be k hvb
    have h2 : (keyDiff ae be).2.1
        = (ae.map Prod.fst).filter (fun k => (mapIndex be k).isValid) := by
      simp [keyDiff, keyDiffA_eq]
    rw [h2, List.mem_filter]
    cases hval : (mapIndex be k).isValid <;> simp only [hval] at hiff ⊢ <;>
      simp at hiff ⊢ <;> simp [hiff]
  · intro k
    have hiff := mapIndex_isValid_iff ae k hva
    have h3 : (keyDiff ae be).2.2
        = (be.map Prod.fst).filter (fun k => !(mapIndex ae k).isValid) := by
      simp [keyDiff, keyDiffB_eq]
    rw [h3, List.mem_filter]
    cases hval : (mapIndex ae k).isValid <;> simp only [hval] at hiff ⊢ <;>
      simp at hiff ⊢ <;> simp [hiff]

/-- C3 witness: key b is a B-only key of the example maps. -/
theorem c3_map_partition_witness :
    RKey.kstr "b"
        ∈ (keyDiff [(RKey.kstr "a", RVal.vint 1)]
            [(RKey.kstr "a", RVal.vint 1), (RKey.kstr "b", RVal.vint 2)]).2.2
      ↔ (RKey.kstr "b"
            ∈ ([(RKey.kstr "a", RVal.vint 1), (RKey.kstr "b", RVal.vint 2)].map Prod.fst)
          ∧ RKey.kstr "b" ∉ ([(RKey.kstr "a", RVal.vint 1)].map Prod.fst)) :=
  (c3_map_partition [] 4 (walk [] 4 4) dInit [] .tstr .tint 10 11
      [(RKey.kstr "a", RVal.vint 1)]
      [(RKey.kstr "a", RVal.vint 1), (RKey.kstr "b", RVal.vint 2)] true true
      (by decide) (by decide) (by decide) rfl rfl rfl rfl).2.2.2.1 (RKey.kstr "b")

/-- Reach composes. -/
theorem Reach.comp {d1 d2 d3 : Differ} (h1 : Reach d1 d2) (h2 : Reach d2 d3) :
    Reach d1 d3 := by
  induction h1 with
  | refl _ => exact h2
  | step ha hb _ ih => exact Reach.step ha hb (ih h2)

/-- Lookup in a prepended pairing list. -/
theorem vlookup_cons (a b x : Visit) (l : List (Visit × Visit)) :
    vlookup ((a, b) :: l) x = if a = x then some b else vlookup l x := by
  by_cases h : a = x <;> simp [vlookup, List.find?_cons, h]

/-- A fresh registration preserves the mutual-inverse invariant. -/
theorem register_inv {d : Differ} {a b : Visit}
    (ha : vlookup d.aSeen a = none) (hb : vlookup d.bSeen b = none)
    (hI : TrackInv d) : TrackInv (register d a b) := by
  intro x y
  show vlookup ((a, b) :: d.aSeen) x = some y ↔ vlookup ((b, a) :: d.bSeen) y = some x
  rw [vlookup_cons, vlookup_cons]
  by_cases hax : a = x
  · rw [if_pos hax]
    by_cases hby : b = y
    · rw [if_pos hby]; subst hax; subst hby; simp
    · rw [if_neg hby]
      subst hax
      constructor
      · intro h; cases h; exact absurd rfl hby
      · intro h
        have hcontra := (hI a y).mpr h
        rw [ha] at hcontra; cases hcontra
  · rw [if_neg hax]
    by_cases hby : b = y
    · rw [if_pos hby]
      subst hby
      constructor
      · intro h
        have hcontra := (hI x b).mp h
        rw [hb] at hcontra; cases hcontra
      · intro h; cases h; exact absurd rfl hax
    · rw [if_neg hby]; exact hI x y

/-- The invariant is preserved along any Reach evolution. -/
theorem reach_inv {d d' : Differ} (h : Reach d d') (hI : TrackInv d) : TrackInv d' := by
  induction h with
  | refl _ => exact hI
  | step ha hb _ ih => exact ih (register_inv ha hb hI)

/-- The child loop only evolves the tracker through its walk function. -/
theorem walkChildren_reach {w : WalkFn} (hw : WReach w) (path : List String) :
    ∀ (items : List (String × RVal × RVal)) (d : Differ) (tr : List Diff) (d' : Differ),
      walkChildren w path items d = some (tr, d') → Reach d d' := by
  intro items
  induction items with
  | nil =>
    intro d tr d' h
    simp only [walkChildren, Option.some.injEq, Prod.mk.injEq] at h
    exact h.2 ▸ Reach.refl d
  | cons item rest ih =>
    intro d tr d' h
    obtain ⟨seg, x, y⟩ := item
    simp only [walkChildren] at h
    cases h1 : w d (path ++ [seg]) x y true false with
    | none => simp only [h1] at h; cases h
    | some r1 =>
      obtain ⟨tr1, d1⟩ := r1
      simp only [h1] at h
      cases h2 : walkChildren w path rest d1 with
      | none => simp only [h2] at h; cases h
      | some r2 =>
        obtain ⟨tr2, d2⟩ := r2
        simp only [h2, Option.some.injEq, Prod.mk.injEq] at h
        exact h.2 ▸ (hw d (path ++ [seg]) x y true false tr1 d1 h1).comp
          (ih d1 tr2 d2 h2)

/-- The kind switch only evolves the tracker through its walk function
and the child loop. -/
theorem walkSwitch_reach {w : WalkFn} (hw : WReach w) {hp : Store} {rfuel : Nat}
    {d : Differ} {path : List String} {av bv : RVal} {wantType : Bool}
    {tr : List Diff} {d' : Differ}
    (h : walkSwitch hp rfuel w d path av bv wantType = some (tr, d')) : Reach d d' := by
  cases av <;> cases bv <;> simp only [walkSwitch] at h <;>
    first
      | (simp only [Option.some.injEq, Prod.mk.injEq] at h; exact h.2 ▸ Reach.refl d)
      | exact walkChildren_reach hw _ _ _ _ _ h
      | exact hw _ _ _ _ _ _ _ _ h
      | ((repeat' split at h) <;>
          first
            | ((cases h) <;> exact Reach.refl _)
            | (simp only [Option.some.injEq, Prod.mk.injEq] at h; exact h.2 ▸ Reach.refl d)
            | exact walkChildren_reach hw _ _ _ _ _ h
            | exact hw _ _ _ _ _ _ _ _ h
            | (rw [Option.map_eq_some'] at h
               obtain ⟨r, hr, hf⟩ := h
               obtain ⟨tr1, d1⟩ := r
               rw [Prod.mk.injEq] at hf
               exact hf.2 ▸ walkChildren_reach hw _ _ _ _ _ hr)
            | exact Reach.refl _)

/-- The format-hook stage only evolves the tracker through the switch
(the equality sub-check runs on its own fresh differ). -/
theorem walkRest_reach {w : WalkFn} (hw : WReach w) {hp : Store} {rfuel : Nat}
    {d : Differ} {path : List String} {av bv : RVal} {wantType : Bool}
    {tr : List Diff} {d' : Differ}
    (h : walkRest hp rfuel w d path av bv wantType = some (tr, d')) : Reach d d' := by
  unfold walkRest at h
  split at h
  · cases he : dEqual w d av bv with
    | none => simp only [he] at h; cases h
    | some eqv =>
      simp only [he] at h
      cases eqv with
      | true => exact walkSwitch_reach hw h
      | false =>
        simp only [Option.some.injEq, Prod.mk.injEq] at h
        exact h.2 ▸ Reach.refl d
  · exact walkSwitch_reach hw h

/-- The transform stage evolves the tracker through the rest of the walk
and the final walk into the transformed values. -/
theorem walkMain_reach {w : WalkFn} (hw : WReach w) {hp : Store} {rfuel : Nat}
    {d : Differ} {path : List String} {av bv : RVal} {xformOk wantType : Bool}
    {tr : List Diff} {d' : Differ}
    (h : walkMain hp rfuel w d path av bv xformOk wantType = some (tr, d')) :
    Reach d d' := by
  unfold walkMain at h
  split at h
  · rename_i xf hxf
    cases he : dEqual w d (xf av) (xf bv) with
    | none => simp only [he] at h; cases h
    | some eqv =>
      simp only [he] at h
      cases eqv with
      | true =>
        simp only [Option.some.injEq, Prod.mk.injEq] at h
        exact h.2 ▸ Reach.refl d
      | false =>
        cases hr : walkRest hp rfuel w d path av bv wantType with
        | none => simp only [hr] at h; cases h
        | some r =>
          obtain ⟨tr1, d1⟩ := r
          simp only [hr] at h
          split at h
          · cases hrec : w d1 (path ++ ["->"]) (xf av) (xf bv) false true with
            | none => simp only [hrec] at h; cases h
            | some r2 =>
              obtain ⟨tr2, d2⟩ := r2
              simp only [hrec, Option.some.injEq, Prod.mk.injEq] at h
              exact h.2 ▸ (walkRest_reach hw hr).comp
                (hw d1 (path ++ ["->"]) (xf av) (xf bv) false true tr2 d2 hrec)
          · simp only [Option.some.injEq, Prod.mk.injEq] at h
            exact h.2 ▸ walkRest_reach hw hr
  · exact walkRest_reach hw h

/-- The cycle stage registers at most one fresh pairing and then follows
the transform stage. -/
theorem walkCycle_reach {w : WalkFn} (hw : WReach w) {hp : Store} {rfuel : Nat}
    {d : Differ} {path : List String} {av bv : RVal} {xformOk wantType : Bool}
    {tr : List Diff} {d' : Differ}
    (h : walkCycle hp rfuel w d path av bv xformOk wantType = some (tr, d')) :
    Reach d d' := by
  unfold walkCycle at h
  split at h
  · dsimp only at h
    split at h
    · split at h <;>
        (simp only [Option.some.injEq, Prod.mk.injEq] at h; exact h.2 ▸ Reach.refl d)
    · rename_i ha
      split at h
      · simp only [Option.some.injEq, Prod.mk.injEq] at h
        exact h.2 ▸ Reach.refl d
      · rename_i hb
        exact Reach.step ha hb (walkMain_reach hw h)
  · exact walkMain_reach hw h

/-- One walk step evolves the tracker only by fresh registrations. -/
theorem walkCore_reach {w : WalkFn} (hw : WReach w) {hp : Store} {rfuel : Nat}
    {d : Differ} {path : List String} {av bv : RVal} {xformOk wantType : Bool}
    {tr : List Diff} {d' : Differ}
    (h : walkCore hp rfuel w d path av bv xformOk wantType = some (tr, d')) :
    Reach d d' := by
  unfold walkCore at h
  split at h
  · simp only [Option.some.injEq, Prod.mk.injEq] at h
    exact h.2 ▸ Reach.refl d
  · split at h
    · simp only [Option.some.injEq, Prod.mk.injEq] at h
      exact h.2 ▸ Reach.refl d
    · split at h
      · simp only [Option.some.injEq, Prod.mk.injEq] at h
        exact h.2 ▸ Reach.refl d
      · split at h
        · simp only [Option.some.injEq, Prod.mk.injEq] at h
          exact h.2 ▸ Reach.refl d
        · exact walkCycle_reach hw h

/-- The walker evolves the tracker only by fresh registrations. -/
theorem walk_reach (hp : Store) (rfuel : Nat) :
    ∀ fuel : Nat, WReach (walk hp rfuel fuel) := by
  intro fuel
  induction fuel with
  | zero => intro d path av bv xformOk wantType tr d' h; cases h
  | succ n ih =>
    intro d path av bv xformOk wantType tr d' h
    exact walkCore_reach ih h

/-- C1: the identity tracker pairs each A-side identity with at most one
B-side identity and vice versa — walking preserves the mutual-inverse
invariant of aSeen and bSeen; revisiting an identity whose recorded
pairing does not match the current counterpart, on either side, emits
exactly the one uneven-cycle difference and stops recursing; two
structurally identical self-referential structures with consistent
pairings emit zero differences and the walk terminates (returns within
finite fuel), while a self-loop against a two-node cycle emits exactly
one uneven-cycle difference and terminates. -/
theorem c1_cycle_tracker :
    (∀ (hp : Store) (rfuel fuel : Nat) (d : Differ) (path : List String)
        (av bv : RVal) (xformOk wantType : Bool) (tr : List Diff) (d' : Differ),
      walk hp rfuel fuel d path av bv xformOk wantType = some (tr, d') →
      TrackInv d → TrackInv d') ∧
    (∀ (hp : Store) (rfuel : Nat) (w : WalkFn) (d : Differ) (path : List String)
        (av bv : RVal) (xformOk wantType : Bool) (prior : Visit),
      av.isValid = true → bv.isValid = true → bv.type = av.type →
      isRefKind av.type = true → av.refIsNil = false → bv.refIsNil = false →
      vlookup d.aSeen (av.refPtr, av.type) = some prior →
      prior ≠ (bv.refPtr, av.type) →
      walkCore hp rfuel w d path av bv xformOk wantType
        = some ([⟨path, av, bv, "uneven cycle"⟩], d)) ∧
    (∀ (hp : Store) (rfuel : Nat) (w : WalkFn) (d : Differ) (path : List String)
        (av bv : RVal) (xformOk wantType : Bool) (prior : Visit),
      av.isValid = true → bv.isValid = true → bv.type = av.type →
      isRefKind av.type = true → av.refIsNil = false → bv.refIsNil = false →
      vlookup d.aSeen (av.refPtr, av.type) = none →
      vlookup d.bSeen (bv.refPtr, av.type) = some prior →
      walkCore hp rfuel w d path av bv xformOk wantType
        = some ([⟨path, av, bv, "uneven cycle"⟩], d)) ∧
    traceOf (walk heapC 8 10 dInit [] (.vptr nodeT (some 1)) (.vptr nodeT (some 2))
        true true) = some [] ∧
    traceOf (walk heapC 8 10 dInit [] (.vptr nodeT (some 1)) (.vptr nodeT (some 3))
        true true) = some [([".Next"], "uneven cycle")] := by
  refine ⟨?_, ?_, ?_, by decide, by decide⟩
  · intro hp rfuel fuel d path av bv xo wt tr d' h hI
    exact reach_inv (walk_reach hp rfuel fuel d path av bv xo wt tr d' h) hI
  · intro hp rfuel w d path av bv xo wt prior hva hvb hty href hn1 hn2 hseen hne
    simp [walkCore, walkCycle, hva, hvb, hty, href, hn1, hn2, hseen, hne]
  · intro hp rfuel w d path av bv xo wt prior hva hvb hty href hn1 hn2 hseen hbseen
    simp [walkCore, walkCycle, hva, hvb, hty, href, hn1, hn2, hseen, hbseen]

/-- C1 witness: the invariant after the self-loop walk, and the
uneven-cycle emission at a concretely mismatched revisit. -/
theorem c1_cycle_tracker_witness :
    TrackInv (register dInit (1, Ty.tptr nodeT) (2, Ty.tptr nodeT)) ∧
    walkCore heapC 8 (walk heapC 8 9)
        ⟨cfg0, [((1, Ty.tptr nodeT), (2, Ty.tptr nodeT))],
          [((2, Ty.tptr nodeT), (1, Ty.tptr nodeT))]⟩
        [".Next"] (.vptr nodeT (some 1)) (.vptr nodeT (some 3)) true false
      = some ([⟨[".Next"], .vptr nodeT (some 1), .vptr nodeT (some 3),
          "uneven cycle"⟩],
        ⟨cfg0, [((1, Ty.tptr nodeT), (2, Ty.tptr nodeT))],
          [((2, Ty.tptr nodeT), (1, Ty.tptr nodeT))]⟩) :=
  ⟨c1_cycle_tracker.1 heapC 8 10 dInit [] (.vptr nodeT (some 1))
      (.vptr nodeT (some 2)) true true []
      (register dInit (1, Ty.tptr nodeT) (2, Ty.tptr nodeT)) rfl
      (by intro x y; simp [dInit, vlookup]),
   c1_cycle_tracker.2.1 heapC 8 (walk heapC 8 9)
      ⟨cfg0, [((1, Ty.tptr nodeT), (2, Ty.tptr nodeT))],
        [((2, Ty.tptr nodeT), (1, Ty.tptr nodeT))]⟩
      [".Next"] (.vptr nodeT (some 1)) (.vptr nodeT (some 3)) true false
      (2, Ty.tptr nodeT) rfl rfl rfl rfl rfl rfl rfl (by decide)⟩

/-- Permuting a map's storage (iteration) order does not change its
sorted key sequence. -/
theorem sortedKeys_perm {m1 m2 : List (RKey × RVal)} (h : m1.Perm m2) :
    sortedKeys m1 = sortedKeys m2 :=
  List.eq_of_perm_of_sorted
    ((List.perm_insertionSort kle _).trans
      ((h.map Prod.fst).trans (List.perm_insertionSort kle _).symm))
    (List.sorted_insertionSort kle _)
    (List.sorted_insertionSort kle _)

/-- Permuting a map's storage order does not change key lookup, provided
the keys are distinct. -/
theorem mapIndex_perm {m1 m2 : List (RKey × RVal)} (h : m1.Perm m2)
    (nd : (m1.map Prod.fst).Nodup) : ∀ k, mapIndex m1 k = mapIndex m2 k := by
  induction h with
  | nil => intro k; rfl
  | cons p _ ih =>
    intro k
    obtain ⟨k', v⟩ := p
    simp only [List.map_cons, List.nodup_cons] at nd
    simp only [mapIndex, List.find?_cons]
    cases hk : (k' == k) with
    | false => exact ih nd.2 k
    | true => rfl
  | swap x y l =>
    intro k
    obtain ⟨k1, v1⟩ := x
    obtain ⟨k2, v2⟩ := y
    simp only [List.map_cons, List.nodup_cons, List.mem_cons] at nd
    have hne : k2 ≠ k1 := fun hcontra => nd.1 (Or.inl hcontra)
    simp only [mapIndex, List.find?_cons]
    cases h1 : (k2 == k) <;> cases h2 : (k1 == k) <;> simp [h1, h2]
    exact absurd (by rw [eq_of_beq h1, eq_of_beq h2] : k2 = k1) hne
  | trans h1 _ ih1 ih2 =>
    intro k
    exact (ih1 nd k).trans (ih2 (((h1.map Prod.fst).nodup_iff).mp nd) k)

/-- C9: rendering is deterministic: the renderer is a pure function of
the value, mode, annotation and depth arguments, so rendering twice
yields byte-identical text; and a map value is rendered through its
sorted key sequence and key lookup only, so its text does not depend on
the storage (iteration) order of its entries — any permutation of the
entries, with keys distinct, renders identically in either mode at any
depth. -/
theorem c9_render_deterministic :
    (∀ (fuel : Nat) (hp : Store) (fullm : Bool) (ad : Nat) (v : RVal)
        (wt : Bool) (depth : Nat),
      writeToF fuel hp fullm ad v wt depth = writeToF fuel hp fullm ad v wt depth) ∧
    (∀ (fuel : Nat) (hp : Store) (fullm : Bool) (ad : Nat) (kt vt : Ty) (a : Nat)
        (m1 m2 : List (RKey × RVal)) (wt : Bool) (depth : Nat),
      m1.Perm m2 → (m1.map Prod.fst).Nodup →
      writeToF fuel hp fullm ad (.vmap kt vt (some (a, m1))) wt depth
        = writeToF fuel hp fullm ad (.vmap kt vt (some (a, m2))) wt depth) := by
  refine ⟨fun _ _ _ _ _ _ _ => rfl, ?_⟩
  intro fuel hp fullm ad kt vt a m1 m2 wt depth h nd
  cases fuel with
  | zero => rfl
  | succ n =>
    have hs := sortedKeys_perm h
    have hl := h.length_eq
    have hmi := mapIndex_perm h nd
    simp only [writeToF, hs, hl, hmi]

/-- C9 witness: the two storage orders of a two-entry string map render
identically in short mode with annotation. -/
theorem c9_render_deterministic_witness :
    writeToF 3 [] false 2
        (.vmap .tstr .tint (some (1, [(.kstr "b", .vint 2), (.kstr "a", .vint 1)])))
        true 1
      = writeToF 3 [] false 2
        (.vmap .tstr .tint (some (1, [(.kstr "a", .vint 1), (.kstr "b", .vint 2)])))
        true 1 :=
  c9_render_deterministic.2 3 [] false 2 Ty.tstr Ty.tint 1
    [(RKey.kstr "b", RVal.vint 2), (RKey.kstr "a", RVal.vint 1)]
    [(RKey.kstr "a", RVal.vint 1), (RKey.kstr "b", RVal.vint 2)] true 1
    (List.Perm.swap (RKey.kstr "a", RVal.vint 1) (RKey.kstr "b", RVal.vint 2) [])
    (by decide)

/-- C5 witness: two non-nil functions of the same type, treated as equal
by the structural rules, whose identity-exposing rewrite outputs differ:
the walker emits the transformed-values-differ note and then the
difference of the transformed values under the arrow sub-path. -/
theorem c5_transformed_values_differ_witness :
    walkMain [] 4 (walk [] 4 4) dF [] (.vfunc "func()" false 1)
        (.vfunc "func()" false 2) true true
      = some ([⟨[], .vfunc "func()" false 1, .vfunc "func()" false 2,
          "(transformed values differ)"⟩,
          ⟨["->"], .vint 1, .vint 2, "int(1) != int(2)"⟩], dF) :=
  (c5_transformed_values_differ [] 4 (walk [] 4 4) dF dF dF []
      (.vfunc "func()" false 1) (.vfunc "func()" false 2) true xfFunc
      [⟨["->"], .vint 1, .vint 2, "int(1) != int(2)"⟩]
      rfl rfl rfl rfl).1
